import Mathlib

/-!
Verification development for the `lkconfig` non-interactive configuration
resolution engine (`src/lkconfig_conf.c` of dywisor/kernelconfig).

The engine is shallowly embedded: each C function becomes a Lean function of
the same name.  The kconfig dependency evaluator (`lkc/lkc.h`: `sym_*`,
`menu_is_visible`, `conf_read`, `conf_write`) is external to the repository
and is modelled as an abstract interface `Ext` over an abstract world type
`W`; the engine threads the world through every external call and records
every mutating external call and every diagnostic in an event trace.
-/

namespace LkConfig

/-- kconfig tri-state domain, `enum tristate { no, mod, yes }`. -/
inductive Tristate : Type where
  | no
  | mod
  | yes
deriving DecidableEq, Repr

/-- kconfig symbol types (`enum symbol_type`); only the distinctions used by
`lkconfig_conf__conf`'s dispatch matter here. -/
inductive SymType : Type where
  | S_UNKNOWN
  | S_BOOLEAN
  | S_TRISTATE
  | S_INT
  | S_HEX
  | S_STRING
  | S_OTHER
deriving DecidableEq, Repr

/-- Static attributes of a `struct symbol`: its (optional) name, its type,
and whether it is a choice symbol (`sym_is_choice`). -/
structure SymInfo : Type where
  name : Option String
  type : SymType
  isChoice : Bool
deriving DecidableEq, Repr

/-- One entry of the caller-supplied decisions dict: a Python `int`
(`PyLong_Check`) or a Python `str` (`PyUnicode_Check`). -/
inductive DecEntry : Type where
  | int (v : Int)
  | str (s : String)
deriving DecidableEq, Repr

/-- Log severities used by the engine (`lkconfig_debug`, `lkconfig_warning`). -/
inductive Severity : Type where
  | debug
  | warning
deriving DecidableEq, Repr

/-- The log messages the engine can emit, mirroring the format strings of
`lkconfig_conf_log_set_symbol` and `lkconfig_conf__conf_string`. -/
inductive LogMsg : Type where
  /-- Format `"Setting symbol %s to \"%s\""`. -/
  | settingNew (name : String) (newval : String)
  /-- Format `"Setting symbol %s to \"%s\" (from \"%s\")"`. -/
  | settingChange (name : String) (newval oldval : String)
  /-- Format `"Setting disabled string-like symbol %s"`. -/
  | disabledString (name : String)
deriving DecidableEq, Repr

/-- Errors raised by the engine via `PyErr_Format`/`PyErr_SetString`.  Each
constructor records the symbol name that the corresponding C format string
interpolates into the message (`none` when the message names no symbol). -/
inductive ConfErr : Type where
  /-- Message `"bad decision value for tristate symbol %s: %d"`. -/
  | invalidDecisionValue (name : Option String) (v : Int)
  /-- Message `"impossible decision value for tristate symbol %s: %d"`. -/
  | outOfRangeDecision (name : Option String) (v : Tristate)
  /-- Message `"bad decision value for tristate symbol %s"`. -/
  | invalidDecisionTypeTri (name : Option String)
  /-- Message `"failed to set tristate symbol %s"`. -/
  | commitRejectedTri (name : Option String)
  /-- Failure of `PyUnicode_AsASCIIString`/`PyBytes_AsString` (exception raised
  by the Python runtime, naming no symbol) -/
  | asciiEncodeFailed
  /-- Message `"bad tristate decision value from string symbol %s: %d"`. -/
  | badStringTriDecision (name : Option String) (v : Tristate)
  /-- Message `"bad decision value for string symbol %s"`. -/
  | invalidDecisionTypeStr (name : Option String)
  /-- Message `"failed to string symbol %s to '%s'"`. -/
  | commitRejectedStr (name : Option String) (v : String)
  /-- Raised by `PyErr_SetString ( PyExc_ValueError, "choice?" )` — a fixed message. -/
  | noSelectableChoice
  /-- nonzero return from `lkconfig_log` (exception from the logger call) -/
  | logFailed
deriving DecidableEq, Repr

/-- The symbol name interpolated into the error's message, if any. -/
def ConfErr.errName : ConfErr → Option String
  | .invalidDecisionValue n _ => n
  | .outOfRangeDecision n _ => n
  | .invalidDecisionTypeTri n => n
  | .commitRejectedTri n => n
  | .asciiEncodeFailed => none
  | .badStringTriDecision n _ => n
  | .invalidDecisionTypeStr n => n
  | .commitRejectedStr n _ => n
  | .noSelectableChoice => none
  | .logFailed => none

/-- Externally observable calls made by the engine: the mutating operations
of the dependency evaluator and the diagnostics handed to the logger. -/
inductive Event : Type where
  | setTristate (s : Nat) (v : Tristate)
  | setString (s : Nat) (v : String)
  | setChoice (choice member : Nat)
  | log (sev : Severity) (msg : LogMsg)
deriving DecidableEq, Repr

/-- The external kconfig dependency evaluator (`lkc/lkc.h`), abstracted over
a world type `W` holding all evaluator-owned mutable state.  Reads take the
current world; mutating operations return the updated world (commits may
trigger arbitrary recomputation of dependent values and visibility). -/
structure Ext (W : Type) : Type where
  /-- static symbol attributes (name, type, choice flag) -/
  info : Nat → SymInfo
  /-- External `menu_is_visible`, keyed by menu node id. -/
  menu_is_visible : W → Nat → Bool
  /-- External `sym_get_tristate_value` (which reads `sym->curr.tri`). -/
  sym_get_tristate_value : W → Nat → Tristate
  /-- External `sym_has_value`. -/
  sym_has_value : W → Nat → Bool
  /-- External `sym_is_changable`. -/
  sym_is_changable : W → Nat → Bool
  /-- External `sym_tristate_within_range`. -/
  sym_tristate_within_range : W → Nat → Tristate → Bool
  /-- External `sym_get_string_value`. -/
  sym_get_string_value : W → Nat → String
  /-- External `sym_get_choice_value`: the currently selected member, if any. -/
  sym_get_choice_value : W → Nat → Option Nat
  /-- External `sym_set_tristate_value`: acceptance flag and updated world. -/
  sym_set_tristate_value : W → Nat → Tristate → Bool × W
  /-- External `sym_set_string_value`: acceptance flag and updated world. -/
  sym_set_string_value : W → Nat → String → Bool × W
  /-- External `sym_set_choice_value` (return value ignored by the engine). -/
  sym_set_choice_value : W → Nat → Nat → W
  /-- External `sym_calc_value`. -/
  sym_calc_value : W → Nat → W
  /-- External `conf_read ( config_file_in )`. -/
  conf_read : W → W
  /-- whether a `lkconfig_log` call at this severity returns 0 (success) -/
  log_ok : Severity → Bool

/-- The decisions dict `conf_decisions`: a partial map from symbol name to
a decision entry (`PyDict_GetItemString`). -/
def Decisions : Type := String → Option DecEntry

/-- Result of one engine function: the external calls it performed in order,
the world after those calls, and its C return value (`.error` models a `-1`
return with a Python exception set; `.ok r` models returning `r ≥ 0`). -/
structure Res (W : Type) : Type where
  trace : List Event
  world : W
  result : Except ConfErr Int

/-- The `lkconfig_conf_get_tristate_str` macro. -/
def lkconfig_conf_get_tristate_str : Tristate → String
  | .yes => "y"
  | .mod => "m"
  | .no => "n"

/-- Function `lkconfig_conf_log_set_symbol`: diagnostic for a symbol assignment.
Returns the log events emitted and the C return value (0 ok, -1 failure). -/
def lkconfig_conf_log_set_symbol {W : Type} (E : Ext W) (w : W) (s : Nat)
    (newval_str oldval_str : String) : List Event × Int :=
  match (E.info s).name with
  | none => ([], 0)
  | some n =>
    if E.sym_has_value w s = false then
      ([Event.log .debug (.settingNew n newval_str)],
       if E.log_ok .debug then 0 else -1)
    else if newval_str ≠ oldval_str then
      ([Event.log .debug (.settingChange n newval_str oldval_str)],
       if E.log_ok .debug then 0 else -1)
    else
      ([], 0)

/-- Function `lkconfig_conf__conf_askvalue_decisions`: returns the looked-up decision
entry and the C return value (0 when the symbol is not changeable — in that
case no lookup is performed — else 1). -/
def lkconfig_conf__conf_askvalue_decisions {W : Type} (E : Ext W)
    (dec : Decisions) (w : W) (s : Nat) : Option DecEntry × Int :=
  if E.sym_is_changable w s = false then
    (none, 0)
  else
    match (E.info s).name with
    | some n => (dec n, 1)
    | none => (none, 1)

/-- Function `lkconfig_conf__conf_get_tristate_decision_value`: map an integer
decision code to a tri-state; any code outside `{0,1,2}` is an error. -/
def lkconfig_conf__conf_get_tristate_decision_value {W : Type} (E : Ext W)
    (s : Nat) (decval : Int) : Except ConfErr Tristate :=
  match decval with
  | 0 => .ok .no
  | 1 => .ok .mod
  | 2 => .ok .yes
  | _ => .error (.invalidDecisionValue (E.info s).name decval)

/-- Function `lkconfig_conf__conf_askvalue_tristate`: determine the new tri-state
value for a symbol from the decisions dict; `.ok (v, ret)` models writing
`v` through `newval_out` and returning `ret ∈ {0,1}`. -/
def lkconfig_conf__conf_askvalue_tristate {W : Type} (E : Ext W)
    (dec : Decisions) (w : W) (s : Nat) (oldval : Tristate) :
    Except ConfErr (Tristate × Int) :=
  let ar := lkconfig_conf__conf_askvalue_decisions E dec w s
  if ar.2 ≤ 0 then
    .ok (oldval, ar.2)
  else
    match ar.1 with
    | none => .ok (oldval, 1)
    | some (.int decval) =>
      match lkconfig_conf__conf_get_tristate_decision_value E s decval with
      | .error e => .error e
      | .ok t =>
        if E.sym_tristate_within_range w s t = false then
          .error (.outOfRangeDecision (E.info s).name t)
        else
          .ok (t, 1)
    | some (.str _) => .error (.invalidDecisionTypeTri (E.info s).name)

/-- Function `lkconfig_conf__conf_sym`: tri-state resolution of the symbol `s`
(the C function receives the menu and uses only `menu->sym`). -/
def lkconfig_conf__conf_sym {W : Type} (E : Ext W) (dec : Decisions)
    (w : W) (s : Nat) : Res W :=
  let oldval := E.sym_get_tristate_value w s
  match lkconfig_conf__conf_askvalue_tristate E dec w s oldval with
  | .error e => ⟨[], w, .error e⟩
  | .ok (newval, ret) =>
    if ret ≤ 0 then
      ⟨[], w, .ok ret⟩
    else
      let logPart : List Event × Int :=
        if oldval ≠ newval ∨ (E.sym_has_value w s = false ∧ oldval ≠ .no) then
          lkconfig_conf_log_set_symbol E w s
            (lkconfig_conf_get_tristate_str newval)
            (lkconfig_conf_get_tristate_str oldval)
        else
          ([], 0)
      if logPart.2 ≠ 0 then
        ⟨logPart.1, w, .error .logFailed⟩
      else
        let sr := E.sym_set_tristate_value w s newval
        if sr.1 then
          ⟨logPart.1 ++ [Event.setTristate s newval], sr.2, .ok 0⟩
        else
          ⟨logPart.1 ++ [Event.setTristate s newval], sr.2,
           .error (.commitRejectedTri (E.info s).name)⟩

/-- Function `lkconfig_conf__conf_string`: string/numeric resolution of symbol `s`. -/
def lkconfig_conf__conf_string {W : Type} (E : Ext W) (dec : Decisions)
    (w : W) (s : Nat) : Res W :=
  let defv := E.sym_get_string_value w s
  let ar := lkconfig_conf__conf_askvalue_decisions E dec w s
  if ar.2 ≤ 0 then
    ⟨[], w, .ok ar.2⟩
  else if E.sym_is_changable w s = false then
    ⟨[], w, .ok 0⟩
  else
    -- determine (warning events, warning-log failure, newval) from the entry
    let step : Except ConfErr (List Event × Bool × String) :=
      match ar.1 with
      | none => .ok ([], false, defv)
      | some (.str v) =>
        if v.all (fun c => c.toNat ≤ 127) then
          .ok ([], false, v)
        else
          .error .asciiEncodeFailed
      | some (.int decval) =>
        match lkconfig_conf__conf_get_tristate_decision_value E s decval with
        | .error e => .error e
        | .ok trival =>
          match trival with
          | .no =>
            if defv ≠ "" then
              .ok ([Event.log .warning
                     (.disabledString (((E.info s).name).getD ""))],
                   !(E.log_ok .warning), defv)
            else
              .ok ([], false, defv)
          | .mod => .error (.badStringTriDecision (E.info s).name .mod)
          | .yes => .error (.badStringTriDecision (E.info s).name .yes)
    match step with
    | .error e => ⟨[], w, .error e⟩
    | .ok (warnEvents, warnFail, newval) =>
      if warnFail then
        ⟨warnEvents, w, .error .logFailed⟩
      else
        let logPart := lkconfig_conf_log_set_symbol E w s newval defv
        if logPart.2 ≠ 0 then
          ⟨warnEvents ++ logPart.1, w, .error .logFailed⟩
        else
          let sr := E.sym_set_string_value w s newval
          if sr.1 then
            ⟨warnEvents ++ logPart.1 ++ [Event.setString s newval], sr.2,
             .ok 0⟩
          else
            ⟨warnEvents ++ logPart.1 ++ [Event.setString s newval], sr.2,
             .error (.commitRejectedStr (E.info s).name newval)⟩

/-- A `struct menu` node: its id (used to evaluate `menu_is_visible`), its
optional symbol (`menu->sym`) and its ordered children (`menu->list`,
threaded via `child->next`). -/
inductive Menu : Type where
  | node (id : Nat) (sym : Option Nat) (children : List Menu)

/-- Accessor for `menu->sym`. -/
def menuSym : Menu → Option Nat
  | .node _ s _ => s

/-- the menu node's id -/
def menuId : Menu → Nat
  | .node i _ _ => i

/-- Accessor for `menu->list`. -/
def menuChildren : Menu → List Menu
  | .node _ _ cs => cs

/-- The counting loop of `lkconfig_conf__conf_choice` (over `menu->list`):
`cnt` counts the visible option-bearing children, `dfl` records the
(1-based) position of the child whose symbol is `def_sym`. -/
def lkconfig_conf__conf_choice_count {W : Type} (E : Ext W) (w : W)
    (def_sym : Option Nat) (cnt dfl : Int) : List Menu → Int × Int
  | [] => (cnt, dfl)
  | child :: rest =>
    if E.menu_is_visible w (menuId child) = false then
      lkconfig_conf__conf_choice_count E w def_sym cnt dfl rest
    else
      match menuSym child with
      | none => lkconfig_conf__conf_choice_count E w def_sym cnt dfl rest
      | some cs =>
        let cnt1 := cnt + 1
        let dfl1 := if some cs = def_sym then cnt1 else dfl
        lkconfig_conf__conf_choice_count E w def_sym cnt1 dfl1 rest

/-- The selection loop after `lkconfig_conf__conf_choice_childs:`: skip
children without a symbol or not visible, decrement `k` at each candidate,
and stop on the candidate at which the decremented counter reaches zero
(`if ( !--cnt ) break;`).  Returns the candidate's symbol and node, or
`none` when the loop runs off the end of the list (`child == NULL`). -/
def lkconfig_conf__conf_choice_pick {W : Type} (E : Ext W) (w : W)
    (k : Int) : List Menu → Option (Nat × Menu)
  | [] => none
  | child :: rest =>
    match menuSym child with
    | none => lkconfig_conf__conf_choice_pick E w k rest
    | some cs =>
      if E.menu_is_visible w (menuId child) = false then
        lkconfig_conf__conf_choice_pick E w k rest
      else
        if k - 1 = 0 then
          some (cs, child)
        else
          lkconfig_conf__conf_choice_pick E w (k - 1) rest

/-- The member-selection part of `lkconfig_conf__conf_choice` (lines
398-440): compute `def_sym`, count the visible option-bearing children,
derive the target position (`cnt == 1` short-circuit; otherwise the dead
conditional store `if ( !is_new ) { cnt = def; }` followed by the
unconditional `cnt = def;`), and pick the child at that position. -/
def lkconfig_conf__conf_choice_pickchild {W : Type} (E : Ext W) (w : W)
    (m : Menu) (s : Nat) (is_new : Bool) : Except ConfErr (Nat × Menu) :=
  let def_sym := E.sym_get_choice_value w s
  let cd := lkconfig_conf__conf_choice_count E w def_sym 0 0 (menuChildren m)
  let k : Int :=
    if cd.1 = 1 then
      cd.1
    else
      let _cntDead := if is_new = false then cd.2 else cd.1
      let cnt := cd.2
      cnt
  match lkconfig_conf__conf_choice_pick E w k (menuChildren m) with
  | none => .error .noSelectableChoice
  | some (cs, child) => .ok (cs, child)

/-- The same selection step with the dead conditional store removed: the
target position is the recorded position `def` of the current choice value
whenever more than one (or zero) candidates exist, independently of
`is_new`. -/
def lkconfig_conf__conf_choice_pickchild_simp {W : Type} (E : Ext W) (w : W)
    (m : Menu) (s : Nat) : Except ConfErr (Nat × Menu) :=
  let def_sym := E.sym_get_choice_value w s
  let cd := lkconfig_conf__conf_choice_count E w def_sym 0 0 (menuChildren m)
  let k : Int := if cd.1 = 1 then cd.1 else cd.2
  match lkconfig_conf__conf_choice_pick E w k (menuChildren m) with
  | none => .error .noSelectableChoice
  | some (cs, child) => .ok (cs, child)

mutual

/-- Function `lkconfig_conf__conf`: the recursive menu traversal. -/
def lkconfig_conf__conf {W : Type} (E : Ext W) (dec : Decisions)
    (w : W) (m : Menu) : Res W :=
  if E.menu_is_visible w (menuId m) = false then
    ⟨[], w, .ok 0⟩
  else
    match menuSym m with
    | none => lkconfig_conf__conf_childs E dec w (menuChildren m)
    | some s =>
      if (E.info s).isChoice then
        match lkconfig_conf__conf_choice E dec w m s with
        | ⟨tr, w1, .error e⟩ => ⟨tr, w1, .error e⟩
        | ⟨tr, w1, .ok _⟩ =>
          if E.sym_get_tristate_value w1 s ≠ .mod then
            ⟨tr, w1, .ok 0⟩
          else
            let r := lkconfig_conf__conf_childs E dec w1 (menuChildren m)
            ⟨tr ++ r.trace, r.world, r.result⟩
      else
        match (E.info s).type with
        | .S_INT | .S_HEX | .S_STRING =>
          match lkconfig_conf__conf_string E dec w s with
          | ⟨tr, w1, .error e⟩ => ⟨tr, w1, .error e⟩
          | ⟨tr, w1, .ok _⟩ =>
            let r := lkconfig_conf__conf_childs E dec w1 (menuChildren m)
            ⟨tr ++ r.trace, r.world, r.result⟩
        | _ =>
          match lkconfig_conf__conf_sym E dec w s with
          | ⟨tr, w1, .error e⟩ => ⟨tr, w1, .error e⟩
          | ⟨tr, w1, .ok _⟩ =>
            let r := lkconfig_conf__conf_childs E dec w1 (menuChildren m)
            ⟨tr ++ r.trace, r.world, r.result⟩
termination_by 4 * sizeOf m + 3
decreasing_by
  all_goals
    (have hlt : sizeOf (menuChildren m) < sizeOf m := by
       cases m with
       | node i s cs => simp [menuChildren]
     omega)

/-- The `lkconfig_conf__conf_childs:` loop: visit each child in order,
aborting on the first failure. -/
def lkconfig_conf__conf_childs {W : Type} (E : Ext W) (dec : Decisions)
    (w : W) (ms : List Menu) : Res W :=
  match ms with
  | [] => ⟨[], w, .ok 0⟩
  | c :: rest =>
    match lkconfig_conf__conf E dec w c with
    | ⟨tr, w1, .error e⟩ => ⟨tr, w1, .error e⟩
    | ⟨tr, w1, .ok _⟩ =>
      let r := lkconfig_conf__conf_childs E dec w1 rest
      ⟨tr ++ r.trace, r.world, r.result⟩
termination_by 4 * sizeOf ms + 2
decreasing_by
  all_goals (simp only [List.cons.sizeOf_spec]; omega)

/-- Function `lkconfig_conf__conf_choice`: choice resolution of choice symbol `s`
carried by menu node `m`. -/
def lkconfig_conf__conf_choice {W : Type} (E : Ext W) (dec : Decisions)
    (w : W) (m : Menu) (s : Nat) : Res W :=
  let is_new := ! E.sym_has_value w s
  if E.sym_is_changable w s then
    match lkconfig_conf__conf_sym E dec w s with
    | ⟨tr, w1, .error e⟩ => ⟨tr, w1, .error e⟩
    | ⟨tr, w1, .ok _⟩ =>
      let w2 := E.sym_calc_value w1 s
      match E.sym_get_tristate_value w2 s with
      | .no => ⟨tr, w2, .ok 1⟩
      | .mod => ⟨tr, w2, .ok 0⟩
      | .yes =>
        let r := lkconfig_conf__conf_choice_yes E dec w2 m s is_new
        ⟨tr ++ r.trace, r.world, r.result⟩
  else
    match E.sym_get_tristate_value w s with
    | .no => ⟨[], w, .ok 1⟩
    | .mod => ⟨[], w, .ok 0⟩
    | .yes => lkconfig_conf__conf_choice_yes E dec w m s is_new
termination_by 4 * sizeOf m + 1
decreasing_by
  all_goals omega

/-- The `yes` arm of `lkconfig_conf__conf_choice`: pick the member, commit
it via `sym_set_choice_value`, and recurse into the selected member's own
children only; returns 1 on success. -/
def lkconfig_conf__conf_choice_yes {W : Type} (E : Ext W) (dec : Decisions)
    (w : W) (m : Menu) (s : Nat) (is_new : Bool) : Res W :=
  match hpick : lkconfig_conf__conf_choice_pickchild E w m s is_new with
  | .error e => ⟨[], w, .error e⟩
  | .ok (cs, child) =>
    let w1 := E.sym_set_choice_value w s cs
    let r := lkconfig_conf__conf_childs E dec w1 (menuChildren child)
    ⟨Event.setChoice s cs :: r.trace, r.world,
     match r.result with
     | .error e => .error e
     | .ok _ => .ok 1⟩
termination_by 4 * sizeOf m
decreasing_by
  have hpe : ∀ (l : List Menu) (k : Int) (cs0 : Nat) (c0 : Menu),
      lkconfig_conf__conf_choice_pick E w k l = some (cs0, c0) → c0 ∈ l := by
    intro l
    induction l with
    | nil =>
      intro k cs0 c0 h
      simp [lkconfig_conf__conf_choice_pick] at h
    | cons ch rest ih =>
      intro k cs0 c0 h
      rw [lkconfig_conf__conf_choice_pick] at h
      split at h
      · exact List.mem_cons_of_mem _ (ih _ _ _ h)
      · split at h
        · exact List.mem_cons_of_mem _ (ih _ _ _ h)
        · split at h
          · cases h
            exact List.mem_cons_self _ _
          · exact List.mem_cons_of_mem _ (ih _ _ _ h)
  have hmem : child ∈ menuChildren m := by
    unfold lkconfig_conf__conf_choice_pickchild at hpick
    dsimp only at hpick
    split at hpick
    · exact absurd hpick (by simp)
    · rename_i cs' c' hp
      cases hpick
      exact hpe _ _ _ _ hp
  have h2 := List.sizeOf_lt_of_mem hmem
  have h3 : sizeOf (menuChildren child) < sizeOf child := by
    cases child with
    | node i s cs => simp [menuChildren]
  have h4 : sizeOf (menuChildren m) < sizeOf m := by
    cases m with
    | node i s cs => simp [menuChildren]
  omega

end

/-- Result of one `lkconfig_conf__check_conf` invocation: the external
calls, the world, the updated `cvars->conf_cnt` counter and the C return
value. -/
structure CRes (W : Type) : Type where
  trace : List Event
  world : W
  cnt : Nat
  result : Except ConfErr Int

mutual

/-- Function `lkconfig_conf__check_conf`: the fixpoint scan.  `parentOf` models
`menu_get_parent_menu` (kconfig code external to this repository: the
enclosing menu of a node); `cnt` is the running `cvars->conf_cnt`. -/
def lkconfig_conf__check_conf {W : Type} (E : Ext W) (dec : Decisions)
    (parentOf : Menu → Menu) (w : W) (cnt : Nat) (m : Menu) : CRes W :=
  if E.menu_is_visible w (menuId m) = false then
    ⟨[], w, cnt, .ok 0⟩
  else
    match menuSym m with
    | some s =>
      if E.sym_has_value w s = false ∧
         (E.sym_is_changable w s = true ∨
          ((E.info s).isChoice = true ∧
           E.sym_get_tristate_value w s = .yes)) then
        match lkconfig_conf__conf E dec w (parentOf m) with
        | ⟨tr, w1, .error e⟩ => ⟨tr, w1, cnt + 1, .error e⟩
        | ⟨tr, w1, .ok _⟩ =>
          let r := lkconfig_conf__check_conf_childs E dec parentOf w1
                     (cnt + 1) (menuChildren m)
          ⟨tr ++ r.trace, r.world, r.cnt, r.result⟩
      else
        lkconfig_conf__check_conf_childs E dec parentOf w cnt (menuChildren m)
    | none =>
      lkconfig_conf__check_conf_childs E dec parentOf w cnt (menuChildren m)
termination_by 2 * sizeOf m + 1
decreasing_by
  all_goals
    (have hlt : sizeOf (menuChildren m) < sizeOf m := by
       cases m with
       | node i s cs => simp [menuChildren]
     omega)

/-- The child loop of `lkconfig_conf__check_conf`. -/
def lkconfig_conf__check_conf_childs {W : Type} (E : Ext W)
    (dec : Decisions) (parentOf : Menu → Menu) (w : W) (cnt : Nat)
    (ms : List Menu) : CRes W :=
  match ms with
  | [] => ⟨[], w, cnt, .ok 0⟩
  | c :: rest =>
    match lkconfig_conf__check_conf E dec parentOf w cnt c with
    | ⟨tr, w1, cnt1, .error e⟩ => ⟨tr, w1, cnt1, .error e⟩
    | ⟨tr, w1, cnt1, .ok _⟩ =>
      let r := lkconfig_conf__check_conf_childs E dec parentOf w1 cnt1 rest
      ⟨tr ++ r.trace, r.world, r.cnt, r.result⟩
termination_by 2 * sizeOf ms
decreasing_by
  all_goals (simp only [List.cons.sizeOf_spec]; omega)

end

/-- Driver-level external calls: the engine's events plus
`conf_read ( config_file_in )` and `conf_write ( config_file_out )`. -/
inductive DEvent : Type where
  | eng (e : Event)
  | confRead
  | confWrite
deriving DecidableEq, Repr

/-- The `do { ... } while ( cvars.conf_cnt )` loop of `lkconfig_conf_main`,
unrolled on a fuel parameter (`none` models a run that has not yet reached
the fixpoint within `fuel` scans; the C loop would simply keep scanning). -/
def lkconfig_conf_main_loop {W : Type} (E : Ext W) (dec : Decisions)
    (parentOf : Menu → Menu) (root : Menu) :
    Nat → W → Option (List DEvent × W × Except ConfErr Int)
  | 0, _ => none
  | fuel + 1, w =>
    let r := lkconfig_conf__check_conf E dec parentOf w 0 root
    match r.result with
    | .error e => some (r.trace.map DEvent.eng, r.world, .error e)
    | .ok _ =>
      if r.cnt ≠ 0 then
        match lkconfig_conf_main_loop E dec parentOf root fuel r.world with
        | none => none
        | some (tr, w1, res) =>
          some (r.trace.map DEvent.eng ++ tr, w1, res)
      else
        some (r.trace.map DEvent.eng ++ [DEvent.confWrite], r.world, .ok 0)

/-- Function `lkconfig_conf_main`: read the input configuration, scan to fixpoint,
then write the output configuration; an error aborts before the write. -/
def lkconfig_conf_main {W : Type} (E : Ext W) (dec : Decisions)
    (parentOf : Menu → Menu) (root : Menu) (fuel : Nat) (w : W) :
    Option (List DEvent × W × Except ConfErr Int) :=
  match lkconfig_conf_main_loop E dec parentOf root fuel (E.conf_read w) with
  | none => none
  | some (tr, w1, res) => some (DEvent.confRead :: tr, w1, res)

/-- The visible option-bearing children of a child list — the candidates
enumerated by the two loops of `lkconfig_conf__conf_choice`. -/
def visibleSymChildren {W : Type} (E : Ext W) (w : W) (l : List Menu) :
    List Menu :=
  l.filter (fun c => (menuSym c).isSome && E.menu_is_visible w (menuId c))

/-- An empty decisions dict. -/
def dnone : Decisions := fun _ => none

/-- A concrete external evaluator over the trivial world `Unit`, used to
evaluate the engine at specific inputs: every dynamic attribute is a fixed
table, commits are accepted or rejected by a flag, and logging succeeds. -/
def mkExt (info : Nat → SymInfo) (vis : Nat → Bool) (tri : Nat → Tristate)
    (hasv : Nat → Bool) (chg : Nat → Bool) (rng : Nat → Tristate → Bool)
    (strv : Nat → String) (chv : Nat → Option Nat)
    (acceptTri acceptStr : Bool) : Ext Unit where
  info := info
  menu_is_visible := fun _ i => vis i
  sym_get_tristate_value := fun _ s => tri s
  sym_has_value := fun _ s => hasv s
  sym_is_changable := fun _ s => chg s
  sym_tristate_within_range := fun _ s t => rng s t
  sym_get_string_value := fun _ s => strv s
  sym_get_choice_value := fun _ s => chv s
  sym_set_tristate_value := fun _ _ _ => (acceptTri, ())
  sym_set_string_value := fun _ _ _ => (acceptStr, ())
  sym_set_choice_value := fun _ _ _ => ()
  sym_calc_value := fun _ _ => ()
  conf_read := fun w => w
  log_ok := fun _ => true

/-- Concrete evaluator for C1: symbol 0 is a named changeable tristate
whose allowed range excludes `yes`. -/
def extC1 : Ext Unit :=
  mkExt (fun _ => ⟨some "A", .S_TRISTATE, false⟩) (fun _ => true)
    (fun _ => .no) (fun _ => false) (fun _ => true)
    (fun _ t => !(t == Tristate.yes)) (fun _ => "") (fun _ => none) true true

/-- Decision `{A: 5}` — integer code outside `{0,1,2}`. -/
def decC1a : Decisions := fun n => if n = "A" then some (.int 5) else none

/-- Decision `{A: 2}` — valid code `yes`, outside the allowed range. -/
def decC1b : Decisions := fun n => if n = "A" then some (.int 2) else none

/-- Concrete evaluator for C2: symbol 0 is not changeable. -/
def extC2 : Ext Unit :=
  mkExt (fun _ => ⟨some "B", .S_TRISTATE, false⟩) (fun _ => true)
    (fun _ => .yes) (fun _ => true) (fun _ => false)
    (fun _ _ => true) (fun _ => "v") (fun _ => none) true true

/-- A decision table whose contents must be irrelevant for C2. -/
def decC2 : Decisions := fun n => if n = "B" then some (.int 2) else none

/-- Concrete evaluator for C3: choice symbol 9 with members 1, 2, 3 of
which only the menu node of member 2 (menu id 2) is visible. -/
def extC3 : Ext Unit :=
  mkExt
    (fun s => if s = 9 then ⟨some "CH", .S_TRISTATE, true⟩
              else ⟨some (toString s), .S_BOOLEAN, false⟩)
    (fun i => i == 2) (fun _ => .yes) (fun _ => false) (fun _ => false)
    (fun _ _ => true) (fun _ => "") (fun _ => none) true true

/-- Choice menu node for C3: three option-bearing members. -/
def menuC3 : Menu :=
  .node 0 (some 9)
    [.node 1 (some 1) [], .node 2 (some 2) [], .node 3 (some 3) []]

/-- Concrete evaluator for C5: symbol 0 is the changeable string symbol
`P` whose current value is `"/usr"`. -/
def extC5 : Ext Unit :=
  mkExt (fun _ => ⟨some "P", .S_STRING, false⟩) (fun _ => true)
    (fun _ => .no) (fun _ => true) (fun _ => true)
    (fun _ _ => true) (fun _ => "/usr") (fun _ => none) true true

/-- Decision `{P: 0}` — explicit clear request for the string symbol. -/
def decC5 : Decisions := fun n => if n = "P" then some (.int 0) else none

/-- Concrete evaluator for C6/C4: every menu node is invisible. -/
def extC6 : Ext Unit :=
  mkExt (fun _ => ⟨some "S", .S_BOOLEAN, false⟩) (fun _ => false)
    (fun _ => .no) (fun _ => false) (fun _ => true)
    (fun _ _ => true) (fun _ => "") (fun _ => none) true true

/-- A menu node carrying a symbol, with one child, for C6. -/
def menuC6 : Menu := .node 0 (some 0) [.node 1 (some 1) []]

/-- Concrete evaluator for C7 (descend case): symbol 0 is a non-changeable
choice currently valued `mod`. -/
def extC7a : Ext Unit :=
  mkExt (fun _ => ⟨some "C", .S_TRISTATE, true⟩) (fun _ => true)
    (fun _ => .mod) (fun _ => true) (fun _ => false)
    (fun _ _ => true) (fun _ => "") (fun _ => none) true true

/-- Concrete evaluator for C7 (no-descend case): symbol 0 is a
non-changeable choice currently valued `no`. -/
def extC7b : Ext Unit :=
  mkExt (fun _ => ⟨some "C", .S_TRISTATE, true⟩) (fun _ => true)
    (fun _ => .no) (fun _ => true) (fun _ => false)
    (fun _ _ => true) (fun _ => "") (fun _ => none) true true

/-- Choice menu node for C7 with one pure grouping child. -/
def menuC7 : Menu := .node 0 (some 0) [.node 1 none []]

/-- Concrete evaluator for C8: symbol 0 is the named changeable boolean
`X` with no value yet and current tri-state `no`. -/
def extC8 : Ext Unit :=
  mkExt (fun _ => ⟨some "X", .S_BOOLEAN, false⟩) (fun _ => true)
    (fun _ => .no) (fun _ => false) (fun _ => true)
    (fun _ _ => true) (fun _ => "") (fun _ => none) true true

/-- Concrete evaluator for C9: choice symbol 5 named `MYCHOICE` with no
recorded choice value; both member menu nodes are visible. -/
def extC9 : Ext Unit :=
  mkExt
    (fun s => if s = 5 then ⟨some "MYCHOICE", .S_TRISTATE, true⟩
              else ⟨some (toString s), .S_BOOLEAN, false⟩)
    (fun _ => true) (fun _ => .yes) (fun _ => false) (fun _ => false)
    (fun _ _ => true) (fun _ => "") (fun _ => none) true true

/-- Choice menu node for C9: two visible option-bearing members, so the
selection falls through to the recorded position 0 and fails. -/
def menuC9 : Menu := .node 0 (some 5) [.node 1 (some 1) [], .node 2 (some 2) []]

/-- Claim C1: for a changeable, named tri-state-kind option whose decision
entry is an integer, tri-state resolution fails with the
`InvalidDecisionValue` error naming the option when the code is outside
`{0,1,2}`, and with the `OutOfRangeDecision` error naming the option when a
valid code maps to a tri-state outside the externally computed range; in
both cases the error is returned with an empty event trace and an unchanged
world, i.e. before any value is committed. -/
theorem claim_C1_tristate_decision_validation {W : Type} (E : Ext W)
    (dec : Decisions) (w : W) (s : Nat) (n : String) (v : Int)
    (hch : E.sym_is_changable w s = true)
    (hn : (E.info s).name = some n)
    (hd : dec n = some (.int v)) :
    ((v ≠ 0 ∧ v ≠ 1 ∧ v ≠ 2) →
      lkconfig_conf__conf_sym E dec w s =
        ⟨[], w, .error (.invalidDecisionValue (some n) v)⟩) ∧
    (∀ t : Tristate,
      lkconfig_conf__conf_get_tristate_decision_value E s v = .ok t →
      E.sym_tristate_within_range w s t = false →
      lkconfig_conf__conf_sym E dec w s =
        ⟨[], w, .error (.outOfRangeDecision (some n) t)⟩) := by
  constructor
  · rintro ⟨h0, h1, h2⟩
    unfold lkconfig_conf__conf_sym lkconfig_conf__conf_askvalue_tristate
      lkconfig_conf__conf_askvalue_decisions
      lkconfig_conf__conf_get_tristate_decision_value
    simp [hch, hn, hd]
  · intro t ht hr
    unfold lkconfig_conf__conf_sym lkconfig_conf__conf_askvalue_tristate
      lkconfig_conf__conf_askvalue_decisions
    simp [hch, hn, hd, ht, hr]

/-- Witness for C1 at symbol `A` with decisions `{A: 5}` and `{A: 2}`
(the latter with `yes` outside the allowed range). -/
theorem claim_C1_witness :
    lkconfig_conf__conf_sym extC1 decC1a () 0 =
      ⟨[], (), .error (.invalidDecisionValue (some "A") 5)⟩ ∧
    lkconfig_conf__conf_sym extC1 decC1b () 0 =
      ⟨[], (), .error (.outOfRangeDecision (some "A") .yes)⟩ :=
  ⟨(claim_C1_tristate_decision_validation extC1 decC1a () 0 "A" 5
      rfl rfl rfl).1 (by decide),
   (claim_C1_tristate_decision_validation extC1 decC1b () 0 "A" 2
      rfl rfl rfl).2 .yes rfl rfl⟩

/-- Claim C2: for an option that is not changeable, tri-state resolution and
string resolution both return success with an empty event trace (no commit
operation invoked) and the world unchanged, for every decision table. -/
theorem claim_C2_fixed_option_noninterference {W : Type} (E : Ext W)
    (dec : Decisions) (w : W) (s : Nat)
    (h : E.sym_is_changable w s = false) :
    lkconfig_conf__conf_sym E dec w s = ⟨[], w, .ok 0⟩ ∧
    lkconfig_conf__conf_string E dec w s = ⟨[], w, .ok 0⟩ := by
  constructor
  · unfold lkconfig_conf__conf_sym lkconfig_conf__conf_askvalue_tristate
      lkconfig_conf__conf_askvalue_decisions
    simp [h]
  · unfold lkconfig_conf__conf_string lkconfig_conf__conf_askvalue_decisions
    simp [h]

/-- Witness for C2: a non-changeable symbol with a decision entry present
for it; neither resolver commits anything. -/
theorem claim_C2_witness :
    extC2.sym_is_changable () 0 = false ∧
    lkconfig_conf__conf_sym extC2 decC2 () 0 = ⟨[], (), .ok 0⟩ ∧
    lkconfig_conf__conf_string extC2 decC2 () 0 = ⟨[], (), .ok 0⟩ :=
  ⟨rfl,
   (claim_C2_fixed_option_noninterference extC2 decC2 () 0 rfl).1,
   (claim_C2_fixed_option_noninterference extC2 decC2 () 0 rfl).2⟩

/-- Claim C6: a menu node whose visibility predicate is false makes both the
resolution traversal and the fixpoint scan return success immediately with
an empty event trace, an unchanged world and (for the scan) an unchanged
counter: nothing in the subtree is committed, counted or logged. -/
theorem claim_C6_invisible_subtree_untouched {W : Type} (E : Ext W)
    (dec : Decisions) (parentOf : Menu → Menu) (w : W) (m : Menu)
    (h : E.menu_is_visible w (menuId m) = false) :
    lkconfig_conf__conf E dec w m = ⟨[], w, .ok 0⟩ ∧
    ∀ cnt : Nat,
      lkconfig_conf__check_conf E dec parentOf w cnt m =
        ⟨[], w, cnt, .ok 0⟩ := by
  constructor
  · rw [lkconfig_conf__conf]
    simp [h]
  · intro cnt
    rw [lkconfig_conf__check_conf]
    simp [h]

/-- Witness for C6: an invisible node carrying a symbol and a child. -/
theorem claim_C6_witness :
    extC6.menu_is_visible () (menuId menuC6) = false ∧
    lkconfig_conf__conf extC6 dnone () menuC6 = ⟨[], (), .ok 0⟩ ∧
    lkconfig_conf__check_conf extC6 dnone id () 3 menuC6 =
      ⟨[], (), 3, .ok 0⟩ :=
  ⟨rfl,
   (claim_C6_invisible_subtree_untouched extC6 dnone id () menuC6 rfl).1,
   (claim_C6_invisible_subtree_untouched extC6 dnone id () menuC6 rfl).2 3⟩

/-- Claim C10: in the member-selection step of choice resolution, the store
guarded by the choice-is-not-new test is immediately overwritten by the
same unconditional store, so the selection is independent of `is_new` and
equals the simplified definition that always uses the recorded position of
the member reported by `sym_get_choice_value`. -/
theorem claim_C10_is_new_dead_store {W : Type} (E : Ext W) (w : W)
    (m : Menu) (s : Nat) (b b' : Bool) :
    lkconfig_conf__conf_choice_pickchild E w m s b =
      lkconfig_conf__conf_choice_pickchild E w m s b' ∧
    lkconfig_conf__conf_choice_pickchild E w m s b =
      lkconfig_conf__conf_choice_pickchild_simp E w m s :=
  ⟨rfl, rfl⟩

/-- Counterexample to C9 as stated: at a concrete yes-valued choice
named `MYCHOICE` whose selection cannot be mapped to a valid position, the
selection step fails with `ConfErr.noSelectableChoice` — the C code raises
the fixed message `"choice?"` — which names no symbol at all, although the
offending choice has a name. -/
theorem claim_C9_counterexample :
    lkconfig_conf__conf_choice_pickchild extC9 () menuC9 5 true =
      .error .noSelectableChoice ∧
    ConfErr.errName .noSelectableChoice = none ∧
    (extC9.info 5).name = some "MYCHOICE" :=
  ⟨rfl, rfl, rfl⟩

/-- Claim C9, amended: when the member selection of a yes-valued choice
cannot map the selection to a valid position, it fails with the
`NoSelectableChoice` error — and that is the only error this step can
produce — whose message is the fixed string `"choice?"`, naming no
option. -/
theorem claim_C9_amended_unnamed_choice_error {W : Type} (E : Ext W)
    (w : W) (m : Menu) (s : Nat) (b : Bool) (e : ConfErr)
    (h : lkconfig_conf__conf_choice_pickchild E w m s b = .error e) :
    e = .noSelectableChoice ∧ e.errName = none := by
  unfold lkconfig_conf__conf_choice_pickchild at h
  dsimp only at h
  split at h
  · cases h
    exact ⟨rfl, rfl⟩
  · exact absurd h (by simp)

/-- Witness for the amended C9 at the concrete failing choice. -/
theorem claim_C9_amended_witness :
    ConfErr.noSelectableChoice = ConfErr.noSelectableChoice ∧
    ConfErr.errName .noSelectableChoice = none :=
  claim_C9_amended_unnamed_choice_error extC9 () menuC9 5 true
    .noSelectableChoice rfl

/-- Claim C5 at the failing input: string symbol `P` with current value
`"/usr"`, changeable, decision `{P: 0}`.  The run emits the warning
diagnostic naming `P` (as the claim says) but then commits the unchanged
previous value `"/usr"` through `sym_set_string_value` — the `no` branch of
`lkconfig_conf__conf_string` never replaces `newval` (still `def`) with the
empty/disabled value, so the option is not cleared. -/
theorem claim_C5_clear_decision_evaluation :
    lkconfig_conf__conf_string extC5 decC5 () 0 =
      ⟨[Event.log .warning (.disabledString "P"), Event.setString 0 "/usr"],
       (), .ok 0⟩ ∧
    extC5.sym_get_string_value () 0 = "/usr" ∧
    "/usr" ≠ "" :=
  ⟨rfl, rfl, by decide⟩

/-- Claim C7: after choice resolution of a visible choice node succeeds, the
traversal descends into the node's children exactly when the choice's
resulting tri-state is `mod`; otherwise it returns success with exactly the
choice resolution's own trace and world. -/
theorem claim_C7_descend_iff_mod {W : Type} (E : Ext W) (dec : Decisions)
    (w : W) (m : Menu) (s : Nat) (tr : List Event) (w1 : W) (r : Int)
    (hvis : E.menu_is_visible w (menuId m) = true)
    (hsym : menuSym m = some s)
    (hch : (E.info s).isChoice = true)
    (hcc : lkconfig_conf__conf_choice E dec w m s = ⟨tr, w1, .ok r⟩) :
    (E.sym_get_tristate_value w1 s ≠ .mod →
      lkconfig_conf__conf E dec w m = ⟨tr, w1, .ok 0⟩) ∧
    (E.sym_get_tristate_value w1 s = .mod →
      lkconfig_conf__conf E dec w m =
        ⟨tr ++ (lkconfig_conf__conf_childs E dec w1 (menuChildren m)).trace,
         (lkconfig_conf__conf_childs E dec w1 (menuChildren m)).world,
         (lkconfig_conf__conf_childs E dec w1 (menuChildren m)).result⟩) := by
  constructor <;> intro hmod <;>
    (rw [lkconfig_conf__conf]; simp [hvis, hsym, hch, hcc, hmod])

/-- Witness for C7: a non-changeable choice valued `mod` (descend, into a
symbol-less child, yielding an empty child trace) and one valued `no`
(return without descending). -/
theorem claim_C7_witness :
    lkconfig_conf__conf extC7a dnone () menuC7 =
      ⟨[] ++ (lkconfig_conf__conf_childs extC7a dnone ()
                (menuChildren menuC7)).trace,
       (lkconfig_conf__conf_childs extC7a dnone ()
          (menuChildren menuC7)).world,
       (lkconfig_conf__conf_childs extC7a dnone ()
          (menuChildren menuC7)).result⟩ ∧
    lkconfig_conf__conf extC7b dnone () menuC7 = ⟨[], (), .ok 0⟩ := by
  have hcca : lkconfig_conf__conf_choice extC7a dnone () menuC7 0 =
      ⟨[], (), .ok 0⟩ := by
    rw [lkconfig_conf__conf_choice]
    rfl
  have hccb : lkconfig_conf__conf_choice extC7b dnone () menuC7 0 =
      ⟨[], (), .ok 1⟩ := by
    rw [lkconfig_conf__conf_choice]
    rfl
  refine ⟨?_, ?_⟩
  · exact (claim_C7_descend_iff_mod extC7a dnone () menuC7 0 [] () 0
      rfl rfl rfl hcca).2 rfl
  · exact (claim_C7_descend_iff_mod extC7b dnone () menuC7 0 [] () 1
      rfl rfl rfl hccb).1 (by decide)

/-- Counterexample to C8 as stated: symbol `X` is changeable, named,
previously had no value, and both its current and new tri-state are `no`
(empty decision table).  The claim's condition holds (the option previously
had no value), yet the run's full trace is the single commit event — no
debug diagnostic is emitted, because the code's guard additionally requires
the old value to differ from `no` when only "no previous value" holds. -/
theorem claim_C8_counterexample :
    extC8.sym_has_value () 0 = false ∧
    extC8.sym_is_changable () 0 = true ∧
    (extC8.info 0).name = some "X" ∧
    lkconfig_conf__conf_sym extC8 dnone () 0 =
      ⟨[Event.setTristate 0 .no], (), .ok 0⟩ ∧
    ¬ ∃ sev msg,
        Event.log sev msg ∈ (lkconfig_conf__conf_sym extC8 dnone () 0).trace := by
  refine ⟨rfl, rfl, rfl, rfl, ?_⟩
  rintro ⟨sev, msg, hm⟩
  have ht : (lkconfig_conf__conf_sym extC8 dnone () 0).trace =
      [Event.setTristate 0 .no] := rfl
  rw [ht] at hm
  simp at hm

/-- Claim C8, amended: in tri-state resolution of a changeable named option
(with a well-typed, in-range decision), a debug diagnostic is emitted if
and only if the new value differs from the current value, or the option
previously had no value *and its current value is not `no`*. -/
theorem claim_C8_amended_debug_log_condition {W : Type} (E : Ext W)
    (dec : Decisions) (w : W) (s : Nat) (n : String)
    (oldval newval : Tristate)
    (hn : (E.info s).name = some n)
    (hold : E.sym_get_tristate_value w s = oldval)
    (hask : lkconfig_conf__conf_askvalue_tristate E dec w s oldval =
      .ok (newval, 1)) :
    ((∃ sev msg,
        Event.log sev msg ∈ (lkconfig_conf__conf_sym E dec w s).trace) ↔
      (oldval ≠ newval ∨
       (E.sym_has_value w s = false ∧ oldval ≠ .no))) := by
  unfold lkconfig_conf__conf_sym
  rw [hold]
  dsimp only
  rw [hask]
  cases hv : E.sym_has_value w s <;>
    cases hlo : E.log_ok .debug <;>
      cases oldval <;> cases newval <;>
        simp [lkconfig_conf_log_set_symbol, lkconfig_conf_get_tristate_str,
          hn, hv, hlo, apply_ite Res.trace]

/-- The count accumulated by the first loop of choice resolution equals the
initial count plus the number of visible option-bearing children. -/
theorem conf_choice_count_fst {W : Type} (E : Ext W) (w : W)
    (ds : Option Nat) (l : List Menu) :
    ∀ cnt dfl : Int,
      (lkconfig_conf__conf_choice_count E w ds cnt dfl l).1 =
        cnt + (visibleSymChildren E w l).length := by
  induction l with
  | nil =>
    intro cnt dfl
    simp [lkconfig_conf__conf_choice_count, visibleSymChildren]
  | cons c rest ih =>
    intro cnt dfl
    rw [lkconfig_conf__conf_choice_count]
    by_cases hv : E.menu_is_visible w (menuId c) = false
    · rw [if_pos hv, ih]
      simp [visibleSymChildren, List.filter_cons, hv]
    · rw [if_neg hv]
      have hv1 : E.menu_is_visible w (menuId c) = true := by
        revert hv
        cases E.menu_is_visible w (menuId c) <;> simp
      rcases hs : menuSym c with _ | cs
      · simp only [hs]
        rw [ih]
        simp [visibleSymChildren, List.filter_cons, hs, hv1]
      · simp only [hs]
        rw [ih]
        simp only [visibleSymChildren, List.filter_cons, hs, hv1,
          Option.isSome_some, Bool.true_and, if_pos, List.length_cons]
        omega

/-- When the visible option-bearing children are exactly `c :: rest`, the
selection loop with target position 1 picks `c`. -/
theorem conf_choice_pick_single {W : Type} (E : Ext W) (w : W)
    (l : List Menu) (c : Menu) (rest : List Menu) (cs : Nat)
    (hf : visibleSymChildren E w l = c :: rest)
    (hcs : menuSym c = some cs) :
    lkconfig_conf__conf_choice_pick E w 1 l = some (cs, c) := by
  induction l with
  | nil => simp [visibleSymChildren] at hf
  | cons ch tail ih =>
    rw [lkconfig_conf__conf_choice_pick]
    by_cases hp : ((menuSym ch).isSome && E.menu_is_visible w (menuId ch))
        = true
    · have hf1 : ch = c ∧ visibleSymChildren E w tail = rest := by
        simp only [visibleSymChildren, List.filter_cons, if_pos hp] at hf
        exact ⟨List.head_eq_of_cons_eq hf, List.tail_eq_of_cons_eq hf⟩
      rcases hf1 with ⟨rfl, _⟩
      have hv1 : E.menu_is_visible w (menuId ch) = true := by
        revert hp
        cases E.menu_is_visible w (menuId ch) <;> simp
      simp [hcs, hv1]
    · have hft : visibleSymChildren E w tail = c :: rest := by
        simp only [visibleSymChildren, List.filter_cons] at hf ⊢
        rwa [if_neg hp] at hf
      rcases hs : menuSym ch with _ | cs0
      · simp only [hs]
        exact ih hft
      · have hv0 : E.menu_is_visible w (menuId ch) = false := by
          revert hp
          cases E.menu_is_visible w (menuId ch) <;> simp [hs]
        simp only [hs, hv0, if_pos]
        exact ih hft

/-- Claim C3: in choice resolution of a yes-valued choice, when exactly one
visible option-bearing child `c` exists, the selection step picks `c`
(independently of the decision table, which it never consults), the `yes`
arm commits it via the external set-choice-value operation, and then
recursively resolves exactly `c`'s own children — no other member's
subtree. -/
theorem claim_C3_single_visible_candidate {W : Type} (E : Ext W)
    (dec : Decisions) (w : W) (m : Menu) (s : Nat) (b : Bool)
    (c : Menu) (cs : Nat)
    (hone : visibleSymChildren E w (menuChildren m) = [c])
    (hcs : menuSym c = some cs) :
    lkconfig_conf__conf_choice_pickchild E w m s b = .ok (cs, c) ∧
    lkconfig_conf__conf_choice_yes E dec w m s b =
      ⟨Event.setChoice s cs ::
        (lkconfig_conf__conf_childs E dec
           (E.sym_set_choice_value w s cs) (menuChildren c)).trace,
       (lkconfig_conf__conf_childs E dec
           (E.sym_set_choice_value w s cs) (menuChildren c)).world,
       match (lkconfig_conf__conf_childs E dec
           (E.sym_set_choice_value w s cs) (menuChildren c)).result with
       | .error e => .error e
       | .ok _ => .ok 1⟩ := by
  have hpk : lkconfig_conf__conf_choice_pickchild E w m s b = .ok (cs, c) := by
    unfold lkconfig_conf__conf_choice_pickchild
    dsimp only
    have hcnt : (lkconfig_conf__conf_choice_count E w
        (E.sym_get_choice_value w s) 0 0 (menuChildren m)).1 = 1 := by
      rw [conf_choice_count_fst]
      simp [hone]
    simp only [hcnt]
    simp [conf_choice_pick_single E w (menuChildren m) c [] cs hone hcs]
  refine ⟨hpk, ?_⟩
  rw [lkconfig_conf__conf_choice_yes]
  split
  · rename_i e heq
    rw [hpk] at heq
    simp at heq
  · rename_i cs1 c1 heq
    rw [hpk] at heq
    injection heq with heq1
    injection heq1 with h1 h2
    subst h1
    subst h2
    rfl

/-- Witness for C3: choice 9 over three members of which only menu node 2
(symbol 2) is visible; member 2 is auto-selected, committed, and its
(empty) subtree resolved. -/
theorem claim_C3_witness :
    lkconfig_conf__conf_choice_pickchild extC3 () menuC3 9 true =
      .ok (2, Menu.node 2 (some 2) []) ∧
    lkconfig_conf__conf_choice_yes extC3 dnone () menuC3 9 true =
      ⟨[Event.setChoice 9 2], (), .ok 1⟩ := by
  have h := claim_C3_single_visible_candidate extC3 dnone () menuC3 9 true
    (Menu.node 2 (some 2) []) 2 rfl rfl
  have h0 : lkconfig_conf__conf_childs extC3 dnone
      (extC3.sym_set_choice_value () 9 2)
      (menuChildren (Menu.node 2 (some 2) [])) = ⟨[], (), .ok 0⟩ := by
    rw [lkconfig_conf__conf_childs.eq_def]
    rfl
  refine ⟨h.1, ?_⟩
  rw [h.2, h0]

/-- The engine's events, lifted to driver events, never contain the
persist operation. -/
theorem count_confWrite_map_eng (l : List Event) :
    (l.map DEvent.eng).count DEvent.confWrite = 0 := by
  rw [List.count_eq_zero]
  simp

/-- Trace structure of the driver's scan loop: an error returns with no
persist event; success persists exactly once, as the last event, after a
scan whose counter is zero ended in the final world. -/
theorem conf_main_loop_spec {W : Type} (E : Ext W) (dec : Decisions)
    (parentOf : Menu → Menu) (root : Menu) :
    ∀ (fuel : Nat) (w : W) (tr : List DEvent) (wend : W)
      (res : Except ConfErr Int),
      lkconfig_conf_main_loop E dec parentOf root fuel w =
        some (tr, wend, res) →
      (∀ e, res = .error e → DEvent.confWrite ∉ tr) ∧
      (∀ r, res = .ok r →
        tr.count DEvent.confWrite = 1 ∧
        tr.getLast? = some DEvent.confWrite ∧
        ∃ w0,
          (lkconfig_conf__check_conf E dec parentOf w0 0 root).cnt = 0 ∧
          (lkconfig_conf__check_conf E dec parentOf w0 0 root).world
            = wend) := by
  intro fuel
  induction fuel with
  | zero =>
    intro w tr wend res h
    simp [lkconfig_conf_main_loop] at h
  | succ fuel ih =>
    intro w tr wend res h
    rw [lkconfig_conf_main_loop] at h
    split at h
    · rename_i e heq
      simp only [Option.some.injEq, Prod.mk.injEq] at h
      obtain ⟨rfl, rfl, rfl⟩ := h
      constructor
      · intro e1 he1
        simp
      · intro r hr
        exact absurd hr (by simp)
    · rename_i val heq
      split at h
      · split at h
        · exact absurd h (by simp)
        · rename_i tr1 w1 res1 heq2
          simp only [Option.some.injEq, Prod.mk.injEq] at h
          obtain ⟨rfl, rfl, rfl⟩ := h
          have spec := ih _ tr1 w1 res1 heq2
          constructor
          · intro e he hmem
            rcases List.mem_append.mp hmem with hm | hm
            · simp at hm
            · exact spec.1 e he hm
          · intro r hr
            obtain ⟨hcount, hlast, w0spec⟩ := spec.2 r hr
            have hne : tr1 ≠ [] := by
              intro hnil
              rw [hnil] at hcount
              simp at hcount
            refine ⟨?_, ?_, w0spec⟩
            · rw [List.count_append, count_confWrite_map_eng, hcount]
            · rw [List.getLast?_append_of_ne_nil _ hne]
              exact hlast
      · rename_i hc
        simp only [Option.some.injEq, Prod.mk.injEq] at h
        obtain ⟨rfl, rfl, rfl⟩ := h
        constructor
        · intro e he
          exact absurd he (by simp)
        · intro r hr
          refine ⟨?_, ?_, ⟨w, ?_, rfl⟩⟩
          · rw [List.count_append, count_confWrite_map_eng]
            simp
          · rw [List.getLast?_append_of_ne_nil _ (by simp)]
            simp
          · simpa using hc

/-- Claim C4: whenever the fixpoint driver terminates, an error from any scan
is returned with no persist event in the trace, and a successful run's
trace contains the persist event exactly once, as the very last event,
emitted after a scan whose unresolved-option counter was zero and whose
final world is the run's final world. -/
theorem claim_C4_fixpoint_driver {W : Type} (E : Ext W) (dec : Decisions)
    (parentOf : Menu → Menu) (root : Menu) (fuel : Nat) (w : W)
    (tr : List DEvent) (wend : W) (res : Except ConfErr Int)
    (h : lkconfig_conf_main E dec parentOf root fuel w =
      some (tr, wend, res)) :
    (∀ e, res = .error e → DEvent.confWrite ∉ tr) ∧
    (∀ r, res = .ok r →
      tr.count DEvent.confWrite = 1 ∧
      tr.getLast? = some DEvent.confWrite ∧
      ∃ w0,
        (lkconfig_conf__check_conf E dec parentOf w0 0 root).cnt = 0 ∧
        (lkconfig_conf__check_conf E dec parentOf w0 0 root).world
          = wend) := by
  unfold lkconfig_conf_main at h
  split at h
  · exact absurd h (by simp)
  · rename_i tr1 w1 res1 heq
    simp only [Option.some.injEq, Prod.mk.injEq] at h
    obtain ⟨rfl, rfl, rfl⟩ := h
    have spec := conf_main_loop_spec E dec parentOf root fuel
      (E.conf_read w) tr1 w1 res1 heq
    constructor
    · intro e he hmem
      rcases List.mem_cons.mp hmem with hm | hm
      · simp at hm
      · exact spec.1 e he hm
    · intro r hr
      obtain ⟨hcount, hlast, w0spec⟩ := spec.2 r hr
      have hne : tr1 ≠ [] := by
        intro hnil
        rw [hnil] at hcount
        simp at hcount
      refine ⟨?_, ?_, w0spec⟩
      · rw [List.count_cons]
        rw [hcount]
        simp
      · rw [show DEvent.confRead :: tr1 = [DEvent.confRead] ++ tr1 from rfl]
        rw [List.getLast?_append_of_ne_nil _ hne]
        exact hlast

/-- Witness for C4: an invisible one-node tree reaches the fixpoint in a
single scan; the driver reads, scans (counter 0), persists once and
succeeds. -/
theorem claim_C4_witness :
    lkconfig_conf_main extC6 dnone id menuC6 1 () =
      some ([DEvent.confRead, DEvent.confWrite], (), .ok 0) ∧
    [DEvent.confRead, DEvent.confWrite].count DEvent.confWrite = 1 ∧
    [DEvent.confRead,
      DEvent.confWrite].getLast? = some DEvent.confWrite ∧
    ∃ w0 : Unit,
      (lkconfig_conf__check_conf extC6 dnone id w0 0 menuC6).cnt = 0 ∧
      (lkconfig_conf__check_conf extC6 dnone id w0 0 menuC6).world = () := by
  have hc : lkconfig_conf__check_conf extC6 dnone id () 0 menuC6 =
      ⟨[], (), 0, .ok 0⟩ := by
    rw [lkconfig_conf__check_conf]
    rfl
  have hm : lkconfig_conf_main extC6 dnone id menuC6 1 () =
      some ([DEvent.confRead, DEvent.confWrite], (), .ok 0) := by
    unfold lkconfig_conf_main lkconfig_conf_main_loop
    simp [hc]
  have h := claim_C4_fixpoint_driver extC6 dnone id menuC6 1 ()
    [DEvent.confRead, DEvent.confWrite] () (.ok 0) hm
  exact ⟨hm, (h.2 0 rfl).1, (h.2 0 rfl).2.1, (h.2 0 rfl).2.2⟩

/-- Witness for the amended C8 at symbol `X` (no value, old `no`, new
`no`): no diagnostic, matching the amended condition's falsity. -/
theorem claim_C8_amended_witness :
    ((∃ sev msg,
        Event.log sev msg ∈ (lkconfig_conf__conf_sym extC8 dnone () 0).trace) ↔
      (Tristate.no ≠ Tristate.no ∨
       (extC8.sym_has_value () 0 = false ∧ Tristate.no ≠ Tristate.no))) :=
  claim_C8_amended_debug_log_condition extC8 dnone () 0 "X" .no .no
    rfl rfl rfl

end LkConfig
